import Mathlib

/-!
# Picture service: record store and authorization-request shaping

A shallow embedding of the Go sources `store.go`, `fga.go`, `auth0.go`,
`pictures.go` and `main.go`.

* Go strings are Lean strings, read as sequences of characters; only equality, the suffix
  test and splitting at `:` are used, and on valid UTF-8 the byte-wise Go functions agree with
  the character-wise ones here.
* A Go `error` value is an `Option String`: `none` is `nil`, `some msg` an error whose
  `Error()` text is `msg`.
* A method with a pointer receiver that mutates the store takes the store and returns the
  new store next to its Go results.
* Calls that leave the process (`uuid.NewString`, the OpenFGA client, the JWT validator,
  the JSON decoder) are parameters.
-/

namespace PictureService

/-! ## store.go -/

/-- Go `error`: `none` is `nil`. -/
abbrev GoError := Option String

/-- `type Picture struct { Id string; Url string }` -/
structure Picture where
  Id : String
  Url : String
deriving DecidableEq, Repr

/-- `type Store struct { Pictures []Picture }` -/
structure Store where
  Pictures : List Picture
deriving DecidableEq, Repr

/-- The loop of `slices.IndexFunc`: `for i := range s { if f(s[i]) { return i } }; return -1`,
with `i` the index of the head of the remaining slice. -/
def IndexFunc.loop {E : Type} (f : E → Bool) : List E → Nat → Int
  | [], _ => -1
  | x :: rest, i => if f x then (i : Int) else IndexFunc.loop f rest (i + 1)

/-- `slices.IndexFunc(s, f)`: the first index `i` with `f(s[i])`, or `-1`. -/
def IndexFunc {E : Type} (s : List E) (f : E → Bool) : Int :=
  IndexFunc.loop f s 0

/-- `func (store *Store) getPictures() *[]Picture` -/
def Store.getPictures (store : Store) : List Picture :=
  store.Pictures

/-- `func (store *Store) getPicture(id string) (*Picture, error)` -/
def Store.getPicture (store : Store) (id : String) : Option Picture × GoError :=
  let idx := IndexFunc store.Pictures (fun picture => picture.Id == id)
  if idx < 0 then
    (none, some "Picture not found")
  else
    (store.Pictures[idx.toNat]?, none)

/-- `func (store *Store) CreatePicture(picture Picture) (*Picture, error)`;
`uuid` is the value `uuid.NewString()` returns in this call. -/
def Store.CreatePicture (store : Store) (picture : Picture) (uuid : String) :
    (Picture × GoError) × Store :=
  let id := uuid
  let picture : Picture := { picture with Id := id }
  let store : Store := { store with Pictures := store.Pictures ++ [picture] }
  ((picture, none), store)

/-- `func (store *Store) DeletePicture(id string) error` -/
def Store.DeletePicture (store : Store) (id : String) : GoError × Store :=
  let idx := IndexFunc store.Pictures (fun picture => picture.Id == id)
  if idx < 0 then
    (some "Picture not found", store)
  else
    (none, { store with
      Pictures := store.Pictures.take idx.toNat ++ store.Pictures.drop (idx.toNat + 1) })

/-- The ids of the stored records, in order. -/
def Store.ids (store : Store) : List String :=
  store.Pictures.map (fun p => p.Id)

/-- One call on the store, as the handlers issue them: a create with the candidate and the
id `uuid.NewString()` returns in that call, or a delete by id. -/
inductive StoreOp where
  | create (picture : Picture) (uuid : String)
  | delete (id : String)
deriving DecidableEq, Repr

/-- The store after one call. -/
def Store.step (store : Store) : StoreOp → Store
  | .create picture uuid => (store.CreatePicture picture uuid).2
  | .delete id => (store.DeletePicture id).2

/-- The store after a sequence of calls, oldest first. -/
def Store.run (store : Store) : List StoreOp → Store
  | [] => store
  | op :: rest => (store.step op).run rest

/-- Every create of the sequence is handed an id that no record carries at that moment. -/
def Store.freshRun (store : Store) : List StoreOp → Bool
  | [] => true
  | .create picture uuid :: rest =>
      decide (uuid ∉ store.ids) && (store.step (.create picture uuid)).freshRun rest
  | .delete id :: rest => (store.step (.delete id)).freshRun rest

/-- The store `main` starts with: `var pictures []Picture; store := Store{Pictures: pictures}`. -/
def Store.fresh : Store :=
  { Pictures := [] }

/-! ## fga.go -/

/-- `client.ClientTupleKey` (object, relation, user). -/
structure ClientTupleKey where
  Object : String
  Relation : String
  User : String
deriving DecidableEq, Repr

/-- `client.ClientCheckRequest` -/
structure ClientCheckRequest where
  Object : String
  Relation : String
  User : String
  ContextualTuples : List ClientTupleKey
deriving DecidableEq, Repr

/-- `client.ClientCheckResponse`; `Allowed` is a `*bool`. -/
structure ClientCheckResponse where
  Allowed : Option Bool
deriving DecidableEq, Repr

/-- `resp.GetAllowed()`: false on a nil response or a nil `Allowed`. -/
def GetAllowed : Option ClientCheckResponse → Bool
  | none => false
  | some resp => resp.Allowed.getD false

/-- `client.ClientWriteRequest` (only `Writes` is set by this program). -/
structure ClientWriteRequest where
  Writes : List ClientTupleKey
deriving DecidableEq, Repr

/-- The remote calls of `*OpenFgaClient` this program makes, each with the result of
`...Body(body).Execute()`. -/
structure OpenFgaClient where
  Check : ClientCheckRequest → Option ClientCheckResponse × GoError
  Write : ClientWriteRequest → GoError

/-- `type FGA struct { Client *OpenFgaClient }` -/
structure FGA where
  Client : OpenFgaClient

/-- `strings.HasSuffix(s, suffix)`:
`len(s) >= len(suffix) && s[len(s)-len(suffix):] == suffix`. -/
def HasSuffix (s suffix : String) : Bool :=
  decide (s.data.length ≥ suffix.data.length) &&
    (s.data.drop (s.data.length - suffix.data.length) == suffix.data)

/-- The loop of `strings.Split(s, sep)` for a one-character separator: `cur` is the piece
being read, closed at each separator; the rest of the string is the last piece. -/
def Split.loop (sep : Char) : List Char → List Char → List String
  | [], cur => [String.mk cur]
  | c :: rest, cur =>
    if c == sep then String.mk cur :: Split.loop sep rest []
    else Split.loop sep rest (cur ++ [c])

/-- `strings.Split(s, sep)` for a one-character separator. -/
def Split (s : String) (sep : Char) : List String :=
  Split.loop sep s.data []

/-- The loop of `CheckWithRoles`: one appended tuple per role. -/
def FGA.CheckWithRoles.contextualTuples (fgaObject fgaUser : String) (roles : List String) :
    List ClientTupleKey :=
  roles.foldl
    (fun contextualTuples role =>
      contextualTuples ++ [{ Object := fgaObject, Relation := role, User := fgaUser }])
    []

/-- The `body` that `CheckWithRoles` hands to `fga.Client.Check`. -/
def FGA.CheckWithRoles.body (fgaObject fgaRelation fgaUser : String) (roles : List String) :
    ClientCheckRequest :=
  { Object := fgaObject
    Relation := fgaRelation
    User := fgaUser
    ContextualTuples := FGA.CheckWithRoles.contextualTuples fgaObject fgaUser roles }

/-- `func (fga *FGA) CheckWithRoles(fgaObject, fgaRelation, fgaUser string, roles []string)
(bool, error)` -/
def FGA.CheckWithRoles (fga : FGA) (fgaObject fgaRelation fgaUser : String)
    (roles : List String) : Bool × GoError :=
  let body := FGA.CheckWithRoles.body fgaObject fgaRelation fgaUser roles
  let (resp, err) := fga.Client.Check body
  if err.isSome || !GetAllowed resp then
    (false, err)
  else
    (true, none)

/-- The loop of `CheckWithPermissions`: for each permission with the suffix, one appended
tuple whose relation is `fmt.Sprintf("can_%s", strings.Split(permission, ":")[0])`.
`Split` never returns an empty slice, so the index `[0]` is always in range. -/
def FGA.CheckWithPermissions.contextualTuples (fgaObject fgaUser : String)
    (permissions : List String) (suffix : String) : List ClientTupleKey :=
  permissions.foldl
    (fun contextualTuples permission =>
      if HasSuffix permission suffix then
        let relationPermision := "can_" ++ ((Split permission ':')[0]?).getD ""
        contextualTuples ++
          [{ Object := fgaObject, Relation := relationPermision, User := fgaUser }]
      else
        contextualTuples)
    []

/-- The `body` that `CheckWithPermissions` hands to `fga.Client.Check`. -/
def FGA.CheckWithPermissions.body (fgaObject fgaRelation fgaUser : String)
    (permissions : List String) (suffix : String) : ClientCheckRequest :=
  { Object := fgaObject
    Relation := fgaRelation
    User := fgaUser
    ContextualTuples :=
      FGA.CheckWithPermissions.contextualTuples fgaObject fgaUser permissions suffix }

/-- `func (fga *FGA) CheckWithPermissions(fgaObject, fgaRelation, fgaUser string,
permissions []string, suffix string) (bool, error)` -/
def FGA.CheckWithPermissions (fga : FGA) (fgaObject fgaRelation fgaUser : String)
    (permissions : List String) (suffix : String) : Bool × GoError :=
  let body := FGA.CheckWithPermissions.body fgaObject fgaRelation fgaUser permissions suffix
  let (resp, err) := fga.Client.Check body
  if err.isSome || !GetAllowed resp then
    (false, err)
  else
    (true, none)

/-- `func (fga *FGA) Check(fgaObject, fgaRelation, fgaUser string) (bool, error)` -/
def FGA.Check (fga : FGA) (fgaObject fgaRelation fgaUser : String) : Bool × GoError :=
  let body : ClientCheckRequest :=
    { Object := fgaObject, Relation := fgaRelation, User := fgaUser, ContextualTuples := [] }
  let (resp, err) := fga.Client.Check body
  if err.isSome || !GetAllowed resp then
    (false, err)
  else
    (true, none)

/-! ### The request shaping in the words of the specification -/

/-- A permission ends with the resource suffix. -/
def Spec.endsWith (permission suffix : String) : Bool :=
  suffix.data.isSuffixOf permission.data

/-- The part of a permission before its first `:` (all of it when it has none). -/
def Spec.beforeFirstColon (permission : String) : String :=
  String.mk (permission.data.takeWhile (fun c => c != ':'))

/-- One contextual tuple per permission that ends with the suffix, in input order, with the
primary object and user and the relation `can_` followed by the part before the first `:`. -/
def Spec.permissionTuples (object user : String) (permissions : List String)
    (suffix : String) : List ClientTupleKey :=
  (permissions.filter (fun p => Spec.endsWith p suffix)).map
    (fun p => { Object := object, Relation := "can_" ++ Spec.beforeFirstColon p, User := user })

/-- One contextual tuple per role: the primary object and user, the role as relation. -/
def Spec.roleTuples (object user : String) (roles : List String) : List ClientTupleKey :=
  roles.map (fun role => { Object := object, Relation := role, User := user })

/-! ## auth0.go -/

/-- `type CustomClaims struct { Permissions []string; Roles []string; ShouldReject bool }` -/
structure CustomClaims where
  Permissions : List String
  Roles : List String
  ShouldReject : Bool
deriving DecidableEq, Repr

/-- `validator.RegisteredClaims`; only `Subject` is read. -/
structure RegisteredClaims where
  Subject : String
deriving DecidableEq, Repr

/-- `validator.ValidatedClaims`. `CustomClaims` is an interface value: `some c` when its
dynamic type is `*CustomClaims`, `none` otherwise. -/
structure ValidatedClaims where
  RegisteredClaims : RegisteredClaims
  CustomClaims : Option CustomClaims
deriving DecidableEq, Repr

/-! ## net/http values -/

/-- What `json.NewEncoder(w).Encode(v)` is handed: a `*Picture` or the store's `*[]Picture`.
The encoder writes the JSON text of the value and a newline in one `Write`; the text itself is
not modelled, and a nil slice and an empty one are both the empty list. -/
inductive Encoded where
  | picture (p : Option Picture)
  | pictures (ps : List Picture)
deriving DecidableEq, Repr

/-- One `Write` on the response body. -/
inductive Chunk where
  | text (s : String)
  | json (v : Encoded)
deriving DecidableEq, Repr

/-- The state of an `http.ResponseWriter`: the header map, the status given to
`WriteHeader` (`none` before the first call), and the writes on the body. -/
structure ResponseWriter where
  Header : List (String × String)
  Status : Option Nat
  Body : List Chunk
deriving DecidableEq, Repr

/-- A response writer nothing was written to. -/
def ResponseWriter.new : ResponseWriter :=
  { Header := [], Status := none, Body := [] }

/-- `w.Header().Set(key, value)` -/
def ResponseWriter.HeaderSet (w : ResponseWriter) (key value : String) : ResponseWriter :=
  { w with Header := (w.Header.filter (fun kv => kv.1 != key)) ++ [(key, value)] }

/-- `w.WriteHeader(statusCode)`: only the first call sets the status. -/
def ResponseWriter.WriteHeader (w : ResponseWriter) (statusCode : Nat) : ResponseWriter :=
  match w.Status with
  | some _ => w
  | none => { w with Status := some statusCode }

/-- `w.Write(data)`: implies `WriteHeader(http.StatusOK)` when no status was written. -/
def ResponseWriter.Write (w : ResponseWriter) (data : Chunk) : ResponseWriter :=
  let w := w.WriteHeader 200
  { w with Body := w.Body ++ [data] }

/-- `http.StatusOK` -/
def StatusOK : Nat := 200
/-- `http.StatusCreated` -/
def StatusCreated : Nat := 201
/-- `http.StatusUnauthorized` -/
def StatusUnauthorized : Nat := 401
/-- `http.StatusMethodNotAllowed` -/
def StatusMethodNotAllowed : Nat := 405
/-- `http.StatusInternalServerError` -/
def StatusInternalServerError : Nat := 500

/-- An `*http.Request` as the handlers read it: method, the segments of the cleaned URL path
(`/pictures/7` is `["pictures", "7"]`), the bearer token of the `Authorization` header
(`none` when the header is missing or is not `Bearer <token>`), the body, the path wildcards the mux matched, and the value stored in the request context under
`jwtmiddleware.ContextKey{}`. -/
structure Request where
  Method : String
  Path : List String
  Token : Option String
  Body : String
  PathValues : List (String × String)
  Claims : Option ValidatedClaims

/-- `r.PathValue(name)`: the empty string when the wildcard was not matched. -/
def Request.PathValue (r : Request) (name : String) : String :=
  ((r.PathValues.find? (fun kv => kv.1 == name)).map (fun kv => kv.2)).getD ""

/-- How a handler call ends: the response writer and the store as it leaves them, and the
value of a run-time panic when it did not return. -/
structure Outcome where
  w : ResponseWriter
  store : Store
  panicked : Option String
deriving DecidableEq, Repr

/-- The text of Go's panic on a method call through a nil interface or pointer. -/
def nilDereference : String :=
  "runtime error: invalid memory address or nil pointer dereference"

/-- The text of Go's panic on a failed single-value type assertion. -/
def failedAssertion : String :=
  "interface conversion: interface is nil, not *validator.ValidatedClaims"

/-! ## pictures.go -/

/-- `type pictureService struct { Store *Store; FGA *FGA }` -/
structure pictureService where
  Store : Store
  FGA : FGA

/-- `func (ps *pictureService) getPicturesHandler(w, r)` -/
def pictureService.getPicturesHandler (ps : pictureService) (w : ResponseWriter)
    (_r : Request) : Outcome :=
  let pictures := ps.Store.getPictures
  let w := w.HeaderSet "Content-Type" "application/json"
  let w := w.WriteHeader StatusOK
  let w := w.Write (.json (.pictures pictures))
  { w := w, store := ps.Store, panicked := none }

/-- `func (ps *pictureService) getPictureHandler(w, r)` -/
def pictureService.getPictureHandler (ps : pictureService) (w : ResponseWriter)
    (r : Request) : Outcome :=
  let id := r.PathValue "id"
  -- token := r.Context().Value(jwtmiddleware.ContextKey{}).(*validator.ValidatedClaims)
  match r.Claims with
  | none => { w := w, store := ps.Store, panicked := some failedAssertion }
  | some token =>
    let user := token.RegisteredClaims.Subject
    -- customClaims, ok := token.CustomClaims.(*CustomClaims)
    match token.CustomClaims with
    | none =>
      let w := w.WriteHeader StatusInternalServerError
      { w := w, store := ps.Store, panicked := none }
    | some customClaims =>
      let (allowed, err) :=
        ps.FGA.CheckWithRoles ("picture:" ++ id) "can_view" ("user:" ++ user) customClaims.Roles
      if err.isSome || !allowed then
        let w := w.WriteHeader StatusUnauthorized
        -- w.Write([]byte(err.Error()))
        match err with
        | none => { w := w, store := ps.Store, panicked := some nilDereference }
        | some msg =>
          let w := w.Write (.text msg)
          { w := w, store := ps.Store, panicked := none }
      else
        let (picture, err) := ps.Store.getPicture id
        match err with
        | some msg =>
          let w := w.WriteHeader StatusInternalServerError
          let w := w.Write (.text msg)
          { w := w, store := ps.Store, panicked := none }
        | none =>
          let w := w.HeaderSet "Content-Type" "application/json"
          let w := w.WriteHeader StatusOK
          let w := w.Write (.json (.picture picture))
          { w := w, store := ps.Store, panicked := none }

/-- The tuples `postPictureHandler` writes for a created picture. -/
def pictureService.postPictureHandler.tuples (pictureId user : String) : List ClientTupleKey :=
  [ { Object := "picture:" ++ pictureId, Relation := "owner", User := "user:" ++ user },
    { Object := "picture:" ++ pictureId, Relation := "viewer", User := "user:*" },
    { Object := "picture:" ++ pictureId, Relation := "system", User := "system:root" } ]

/-- `func (ps *pictureService) postPictureHandler(w, r)`; `decode` is
`json.NewDecoder(r.Body).Decode(&parsedBody)` as a function of the body (the value left in
`parsedBody` and the error), `uuid` the id `uuid.NewString()` returns. -/
def pictureService.postPictureHandler (ps : pictureService)
    (decode : String → Picture × GoError) (uuid : String)
    (w : ResponseWriter) (r : Request) : Outcome :=
  match r.Claims with
  | none => { w := w, store := ps.Store, panicked := some failedAssertion }
  | some token =>
    let user := token.RegisteredClaims.Subject
    let (parsedBody, err) := decode r.Body
    match err with
    | some msg =>
      let w := w.WriteHeader StatusInternalServerError
      let w := w.Write (.text msg)
      { w := w, store := ps.Store, panicked := none }
    | none =>
      let ((picture, err), store) := ps.Store.CreatePicture parsedBody uuid
      match err with
      | some msg =>
        let w := w.WriteHeader StatusInternalServerError
        let w := w.Write (.text msg)
        { w := w, store := store, panicked := none }
      | none =>
        let tuples := pictureService.postPictureHandler.tuples picture.Id user
        let body : ClientWriteRequest := { Writes := tuples }
        let err := ps.FGA.Client.Write body
        match err with
        | some msg =>
          let w := w.WriteHeader StatusUnauthorized
          let w := w.Write (.text msg)
          { w := w, store := store, panicked := none }
        | none =>
          let w := w.HeaderSet "Content-Type" "application/json"
          let w := w.WriteHeader StatusCreated
          let w := w.Write (.json (.picture (some picture)))
          { w := w, store := store, panicked := none }

/-- `func (ps *pictureService) deletePictureHandler(w, r)` -/
def pictureService.deletePictureHandler (ps : pictureService) (w : ResponseWriter)
    (r : Request) : Outcome :=
  let id := r.PathValue "id"
  match r.Claims with
  | none => { w := w, store := ps.Store, panicked := some failedAssertion }
  | some token =>
    let user := token.RegisteredClaims.Subject
    match token.CustomClaims with
    | none =>
      let w := w.WriteHeader StatusInternalServerError
      { w := w, store := ps.Store, panicked := none }
    | some customClaims =>
      let (allowed, err) :=
        ps.FGA.CheckWithRoles ("picture:" ++ id) "can_view" ("user:" ++ user) customClaims.Roles
      if err.isSome || !allowed then
        let w := w.WriteHeader StatusUnauthorized
        match err with
        | none => { w := w, store := ps.Store, panicked := some nilDereference }
        | some msg =>
          let w := w.Write (.text msg)
          { w := w, store := ps.Store, panicked := none }
      else
        let (err, store) := ps.Store.DeletePicture (r.PathValue "id")
        match err with
        | some msg =>
          let w := w.WriteHeader StatusInternalServerError
          let w := w.Write (.text msg)
          { w := w, store := store, panicked := none }
        | none =>
          let w := w.HeaderSet "Content-Type" "application/json"
          let w := w.WriteHeader StatusOK
          { w := w, store := store, panicked := none }

/-! ## auth0.go: the token check -/

/-- The `errorHandler` closure of `EnsureValidAccessToken`. -/
def errorHandler (w : ResponseWriter) : ResponseWriter :=
  let w := w.HeaderSet "Content-Type" "application/json"
  let w := w.WriteHeader StatusUnauthorized
  w.Write (.text "\x7b\"message\":\"Failed to validate JWT.\"\x7d")

/-- Modelled from the spec: `CheckJWT` of the `jwtmiddleware` library, which
`EnsureValidAccessToken` wraps around `next`, is not under `src/`. The identity boundary
consumes the bearer token; on failure (missing or invalid token) it answers through its error
handler before the application handlers are reached; on success it exposes the validated
claims to the handler through the request context. `validateToken` is the library validator
`jwtValidator.ValidateToken` as a function of the token, `store` the store at the time of the
call (a rejected request leaves it as it is). -/
def CheckJWT (validateToken : String → Option ValidatedClaims × GoError)
    (errorHandler : ResponseWriter → ResponseWriter)
    (next : ResponseWriter → Request → Outcome) (store : Store)
    (w : ResponseWriter) (r : Request) : Outcome :=
  match r.Token with
  | none => { w := errorHandler w, store := store, panicked := none }
  | some token =>
    match validateToken token with
    | (_, some _) => { w := errorHandler w, store := store, panicked := none }
    | (validToken, none) => next w { r with Claims := validToken }

/-- `func EnsureValidAccessToken() func(next http.Handler) http.Handler`: the middleware
built from the validator and `errorHandler`, returned as `middleware.CheckJWT(next)`. -/
def EnsureValidAccessToken (validateToken : String → Option ValidatedClaims × GoError)
    (next : ResponseWriter → Request → Outcome) (store : Store)
    (w : ResponseWriter) (r : Request) : Outcome :=
  CheckJWT validateToken errorHandler next store w r

/-- `func NewEnsureValidAccessToken(next http.Handler) http.Handler` -/
def NewEnsureValidAccessToken (validateToken : String → Option ValidatedClaims × GoError)
    (next : ResponseWriter → Request → Outcome) (store : Store)
    (w : ResponseWriter) (r : Request) : Outcome :=
  EnsureValidAccessToken validateToken next store w r

/-! ## main.go -/

/-- `func defaultHandler(writer, request)`: `io.WriteString(writer, "ok\n")`. -/
def defaultHandler (store : Store) (w : ResponseWriter) (_r : Request) : Outcome :=
  { w := w.Write (.text "ok\n"), store := store, panicked := none }

/-- The calls out of the process that serving one request can make. -/
structure Env where
  validateToken : String → Option ValidatedClaims × GoError
  fga : FGA
  decode : String → Picture × GoError
  uuid : String

/-- Modelled from the spec: the dispatch of `http.ServeMux` (standard library, not under
`src/`) over the five patterns `main` registers: `GET /`, `GET /pictures`,
`GET /pictures/{id}`, `POST /pictures`, `DELETE /pictures/{id}`. A `GET` pattern also serves
`HEAD`; `{id}` matches one non-empty segment; `GET /` matches every path, so a path whose
patterns do not list the method is answered 405. -/
def router (env : Env) (store : Store) (w : ResponseWriter) (r : Request) : Outcome :=
  let ps : pictureService := { Store := store, FGA := env.fga }
  let isGet := r.Method == "GET" || r.Method == "HEAD"
  let notAllowed : Outcome :=
    { w := (w.WriteHeader StatusMethodNotAllowed).Write (.text "Method Not Allowed\n"),
      store := store, panicked := none }
  match r.Path with
  | ["pictures"] =>
    if isGet then ps.getPicturesHandler w r
    else if r.Method == "POST" then ps.postPictureHandler env.decode env.uuid w r
    else notAllowed
  | ["pictures", id] =>
    if id == "" then
      if isGet then defaultHandler store w r else notAllowed
    else if isGet then ps.getPictureHandler w { r with PathValues := [("id", id)] }
    else if r.Method == "DELETE" then
      ps.deletePictureHandler w { r with PathValues := [("id", id)] }
    else notAllowed
  | _ => if isGet then defaultHandler store w r else notAllowed

/-- The `Handler` of the server `main` starts: `NewEnsureValidAccessToken(router)`, the token
check wrapped around the whole mux. -/
def server (env : Env) (store : Store) (r : Request) : Outcome :=
  NewEnsureValidAccessToken env.validateToken (router env store) store ResponseWriter.new r

/-! ## Concrete values for the worked cases -/

/-- Validated claims of a user with the role `admin`. -/
def Sample.claims : ValidatedClaims :=
  { RegisteredClaims := { Subject := "auth0|alice" },
    CustomClaims := some { Permissions := [], Roles := ["admin"], ShouldReject := false } }

/-- A policy service that answers every check with `allowed: false` and no error, and
accepts every write. -/
def Sample.fgaDenies : FGA :=
  { Client :=
      { Check := fun _ => (some { Allowed := some false }, none),
        Write := fun _ => none } }

/-- A policy service that cannot be reached: every call returns an error. -/
def Sample.fgaUnreachable : FGA :=
  { Client :=
      { Check := fun _ => (none, some "dial tcp: connection refused"),
        Write := fun _ => some "dial tcp: connection refused" } }

/-- A validator that accepts the token `good` only. -/
def Sample.validateToken (token : String) : Option ValidatedClaims × GoError :=
  if token == "good" then (some Sample.claims, none) else (none, some "token is malformed")

/-- A decoder that reads every body as a picture with that url and no id. -/
def Sample.decode (body : String) : Picture × GoError :=
  ({ Id := "", Url := body }, none)

/-- The calls out of the process, with a policy service that denies every check. -/
def Sample.env : Env :=
  { validateToken := Sample.validateToken,
    fga := Sample.fgaDenies,
    decode := Sample.decode,
    uuid := "1b4e28ba-2fa1-41d2-883f-0016d3cca427" }

/-- `GET /pictures` without an `Authorization` header. -/
def Sample.listRequest : Request :=
  { Method := "GET", Path := ["pictures"], Token := none, Body := "", PathValues := [],
    Claims := none }

/-- `GET /pictures/7` as the mux hands it to the handler after the token check. -/
def Sample.getRequest : Request :=
  { Method := "GET", Path := ["pictures", "7"], Token := some "good", Body := "",
    PathValues := [("id", "7")], Claims := some Sample.claims }

/-- `POST /pictures` as the mux hands it to the handler after the token check. -/
def Sample.postRequest : Request :=
  { Method := "POST", Path := ["pictures"], Token := some "good",
    Body := "https://img/new.png", PathValues := [], Claims := some Sample.claims }

/-! ## Lemmas on the linear scan -/

theorem IndexFunc.loop_spec {E : Type} (f : E → Bool) (s : List E) (i : Nat) :
    ((∀ x ∈ s, f x = false) ∧ IndexFunc.loop f s i = -1) ∨
    (∃ pre p post, s = pre ++ p :: post ∧ (∀ q ∈ pre, f q = false) ∧ f p = true ∧
      IndexFunc.loop f s i = ((i + pre.length : Nat) : Int)) := by
  induction s generalizing i with
  | nil => left; simp [IndexFunc.loop]
  | cons x rest ih =>
    by_cases hx : f x = true
    · right
      refine ⟨[], x, rest, rfl, ?_, hx, ?_⟩
      · intro q hq; cases hq
      · simp [IndexFunc.loop, hx]
    · have hx' : f x = false := by simpa using hx
      rcases ih (i + 1) with ⟨hall, hres⟩ | ⟨pre, p, post, hs, hpre, hp, hres⟩
      · left
        refine ⟨?_, ?_⟩
        · intro y hy
          rcases List.mem_cons.mp hy with rfl | hy
          · exact hx'
          · exact hall y hy
        · simp [IndexFunc.loop, hx', hres]
      · right
        refine ⟨x :: pre, p, post, by simp [hs], ?_, hp, ?_⟩
        · intro q hq
          rcases List.mem_cons.mp hq with rfl | hq
          · exact hx'
          · exact hpre q hq
        · simp [IndexFunc.loop, hx', hres]
          omega

/-- When no element satisfies the predicate the scan returns `-1`. -/
theorem IndexFunc_none {E : Type} (f : E → Bool) (s : List E)
    (h : ∀ x ∈ s, f x = false) : IndexFunc s f = -1 := by
  rcases IndexFunc.loop_spec f s 0 with ⟨_, hres⟩ | ⟨pre, p, post, hs, _, hp, _⟩
  · exact hres
  · have := h p (by simp [hs])
    simp [this] at hp

/-- When some element satisfies the predicate the scan returns the length of the longest
prefix that has none. -/
theorem IndexFunc_some {E : Type} (f : E → Bool) (s : List E)
    (h : ∃ x ∈ s, f x = true) :
    ∃ pre p post, s = pre ++ p :: post ∧ (∀ q ∈ pre, f q = false) ∧ f p = true ∧
      IndexFunc s f = (pre.length : Int) := by
  rcases IndexFunc.loop_spec f s 0 with ⟨hall, _⟩ | ⟨pre, p, post, hs, hpre, hp, hres⟩
  · obtain ⟨x, hx, hfx⟩ := h
    simp [hall x hx] at hfx
  · exact ⟨pre, p, post, hs, hpre, hp, by simpa [IndexFunc] using hres⟩

theorem getPicture_not_found (store : Store) (id : String)
    (h : ∀ p ∈ store.Pictures, p.Id ≠ id) :
    store.getPicture id = (none, some "Picture not found") := by
  have : IndexFunc store.Pictures (fun picture => picture.Id == id) = -1 :=
    IndexFunc_none _ _ (by intro x hx; simpa using h x hx)
  simp [Store.getPicture, this]

theorem DeletePicture_not_found (store : Store) (id : String)
    (h : ∀ p ∈ store.Pictures, p.Id ≠ id) :
    store.DeletePicture id = (some "Picture not found", store) := by
  have : IndexFunc store.Pictures (fun picture => picture.Id == id) = -1 :=
    IndexFunc_none _ _ (by intro x hx; simpa using h x hx)
  simp [Store.DeletePicture, this]

/-- The split of a list at the first element satisfying a predicate is unique. -/
theorem first_split_unique {E : Type} (f : E → Bool) :
    ∀ (pre pre' : List E) (p p' : E) (post post' : List E),
      pre ++ p :: post = pre' ++ p' :: post' →
      (∀ q ∈ pre, f q = false) → f p = true →
      (∀ q ∈ pre', f q = false) → f p' = true →
      pre = pre' ∧ p = p' ∧ post = post' := by
  intro pre
  induction pre with
  | nil =>
    intro pre' p p' post post' h _ hp hpre' _
    cases pre' with
    | nil => simp at h; exact ⟨rfl, h.1, h.2⟩
    | cons y ys =>
      simp at h
      have := hpre' y (by simp)
      rw [← h.1, hp] at this
      cases this
  | cons x xs ih =>
    intro pre' p p' post post' h hpre hp hpre' hp'
    cases pre' with
    | nil =>
      simp at h
      have := hpre x (by simp)
      rw [h.1, hp'] at this
      cases this
    | cons y ys =>
      simp at h
      obtain ⟨hxy, hrest⟩ := h
      obtain ⟨h1, h2, h3⟩ := ih ys p p' post post' hrest
        (fun q hq => hpre q (by simp [hq])) hp (fun q hq => hpre' q (by simp [hq])) hp'
      exact ⟨by rw [hxy, h1], h2, h3⟩

/-- The scan for an id, at a store split at the first record carrying it. -/
theorem IndexFunc_at_split (id : String) (pre post : List Picture) (p : Picture)
    (hpre : ∀ q ∈ pre, q.Id ≠ id) (hp : p.Id = id) :
    IndexFunc (pre ++ p :: post) (fun picture => picture.Id == id) = (pre.length : Int) := by
  obtain ⟨pre', p', post', hs', hpre', hp', hidx⟩ :=
    IndexFunc_some (fun picture : Picture => picture.Id == id) (pre ++ p :: post)
      ⟨p, by simp, by simp [hp]⟩
  obtain ⟨h1, _, _⟩ := first_split_unique (fun picture : Picture => picture.Id == id)
    pre pre' p p' post post' hs' (by intro q hq; simpa using hpre q hq) (by simp [hp]) hpre' hp'
  rw [hidx, h1]

theorem getElem?_at_split {E : Type} (pre post : List E) (p : E) :
    (pre ++ p :: post)[pre.length]? = some p := by
  induction pre with
  | nil => simp
  | cons x xs ih => simpa using ih

theorem getPicture_found (store : Store) (id : String) (pre post : List Picture) (p : Picture)
    (hs : store.Pictures = pre ++ p :: post) (hpre : ∀ q ∈ pre, q.Id ≠ id) (hp : p.Id = id) :
    store.getPicture id = (some p, none) := by
  have hidx := IndexFunc_at_split id pre post p hpre hp
  have hneg : ¬ ((pre.length : Int) < 0) := by omega
  have hget := getElem?_at_split pre post p
  simp only [Store.getPicture, hs, hidx, hneg, if_false, Int.toNat_ofNat, hget]

theorem DeletePicture_found (store : Store) (id : String) (pre post : List Picture)
    (p : Picture)
    (hs : store.Pictures = pre ++ p :: post) (hpre : ∀ q ∈ pre, q.Id ≠ id) (hp : p.Id = id) :
    store.DeletePicture id = (none, { store with Pictures := pre ++ post }) := by
  have hidx := IndexFunc_at_split id pre post p hpre hp
  have hneg : ¬ ((pre.length : Int) < 0) := by omega
  simp [Store.DeletePicture, hs, hidx, hneg]

/-- A store with a record carrying the id splits at the first such record. -/
theorem exists_first_split (store : Store) (id : String)
    (h : ∃ p ∈ store.Pictures, p.Id = id) :
    ∃ pre p post, store.Pictures = pre ++ p :: post ∧ (∀ q ∈ pre, q.Id ≠ id) ∧ p.Id = id := by
  obtain ⟨p0, hp0, hid⟩ := h
  obtain ⟨pre, p, post, hs, hpre, hp, _⟩ :=
    IndexFunc_some (fun picture : Picture => picture.Id == id) store.Pictures
      ⟨p0, hp0, by simp [hid]⟩
  exact ⟨pre, p, post, hs, fun q hq => by simpa using hpre q hq, by simpa using hp⟩

theorem DeletePicture_sublist (store : Store) (id : String) :
    List.Sublist (store.DeletePicture id).2.Pictures store.Pictures := by
  by_cases h : ∃ p ∈ store.Pictures, p.Id = id
  · obtain ⟨pre, p, post, hs, hpre, hp⟩ := exists_first_split store id h
    rw [DeletePicture_found store id pre post p hs hpre hp, hs]
    exact List.Sublist.append_left (List.sublist_cons_self p post) pre
  · have h' : ∀ p ∈ store.Pictures, p.Id ≠ id := fun p hp hid => h ⟨p, hp, hid⟩
    rw [DeletePicture_not_found store id h']

theorem CreatePicture_store (store : Store) (picture : Picture) (uuid : String) :
    (store.CreatePicture picture uuid).2.Pictures
      = store.Pictures ++ [{ Id := uuid, Url := picture.Url }] := rfl

theorem CreatePicture_result (store : Store) (picture : Picture) (uuid : String) :
    (store.CreatePicture picture uuid).1 = ({ Id := uuid, Url := picture.Url }, none) := rfl

theorem mem_ids (store : Store) (id : String) :
    id ∈ store.ids ↔ ∃ p ∈ store.Pictures, p.Id = id := by
  simp [Store.ids]

/-- Each call keeps the ids pairwise distinct when a create is handed a new id. -/
theorem step_nodup (store : Store) (op : StoreOp) (hnodup : store.ids.Nodup)
    (hfresh : ∀ picture uuid, op = .create picture uuid → uuid ∉ store.ids) :
    (store.step op).ids.Nodup := by
  cases op with
  | create picture uuid =>
    have hf := hfresh picture uuid rfl
    simp only [Store.step, Store.ids, CreatePicture_store, List.map_append, List.map_cons,
      List.map_nil]
    rw [List.nodup_append]
    refine ⟨hnodup, by simp, ?_⟩
    intro a ha hb
    simp at hb
    subst hb
    exact hf ha
  | delete id =>
    exact List.Nodup.sublist (List.Sublist.map _ (DeletePicture_sublist store id)) hnodup

theorem run_nodup (ops : List StoreOp) :
    ∀ store : Store, store.ids.Nodup → store.freshRun ops = true → (store.run ops).ids.Nodup := by
  induction ops with
  | nil => intro store h _; exact h
  | cons op rest ih =>
    intro store hnodup hfresh
    cases op with
    | create picture uuid =>
      simp only [Store.freshRun, Bool.and_eq_true, decide_eq_true_eq] at hfresh
      exact ih _ (step_nodup store _ hnodup (by
        intro p u hpu
        cases hpu
        exact hfresh.1)) hfresh.2
    | delete id =>
      simp only [Store.freshRun] at hfresh
      exact ih _ (step_nodup store _ hnodup (by intro p u hpu; cases hpu)) hfresh

/-! ## Lemmas on the request shaping -/

theorem HasSuffix_eq_endsWith (s suffix : String) : HasSuffix s suffix = Spec.endsWith s suffix := by
  rw [Bool.eq_iff_iff]
  simp only [HasSuffix, Spec.endsWith, Bool.and_eq_true, decide_eq_true_eq, beq_iff_eq,
    List.isSuffixOf_iff_suffix, List.suffix_iff_eq_drop]
  constructor
  · rintro ⟨_, h⟩
    exact h.symm
  · intro h
    refine ⟨?_, h.symm⟩
    have hsuf : suffix.data <:+ s.data := List.suffix_iff_eq_drop.mpr h
    exact hsuf.length_le

theorem Split.loop_head (sep : Char) (s cur : List Char) :
    (Split.loop sep s cur)[0]? = some (String.mk (cur ++ s.takeWhile (fun c => c != sep))) := by
  induction s generalizing cur with
  | nil => simp [Split.loop]
  | cons c rest ih =>
    by_cases hc : c = sep
    · simp [Split.loop, hc]
    · simp [Split.loop, hc, ih]

theorem Split_head (s : String) :
    ((Split s ':')[0]?).getD "" = Spec.beforeFirstColon s := by
  simp [Split, Split.loop_head, Spec.beforeFirstColon]

theorem permission_loop (fgaObject fgaUser suffix : String) (permissions : List String) :
    ∀ acc : List ClientTupleKey,
      permissions.foldl
        (fun contextualTuples permission =>
          if HasSuffix permission suffix then
            let relationPermision := "can_" ++ ((Split permission ':')[0]?).getD ""
            contextualTuples ++
              [{ Object := fgaObject, Relation := relationPermision, User := fgaUser }]
          else
            contextualTuples)
        acc
      = acc ++ Spec.permissionTuples fgaObject fgaUser permissions suffix := by
  induction permissions with
  | nil => intro acc; simp [Spec.permissionTuples]
  | cons p rest ih =>
    intro acc
    rw [List.foldl_cons, ih]
    by_cases hp : HasSuffix p suffix = true
    · have hp' : Spec.endsWith p suffix = true := by rw [← HasSuffix_eq_endsWith]; exact hp
      simp [Spec.permissionTuples, hp, hp', Split_head]
    · have hp0 : HasSuffix p suffix = false := by simpa using hp
      have hp' : Spec.endsWith p suffix = false := by rw [← HasSuffix_eq_endsWith]; exact hp0
      simp [Spec.permissionTuples, hp0, hp']

theorem role_loop (fgaObject fgaUser : String) (roles : List String) :
    ∀ acc : List ClientTupleKey,
      roles.foldl
        (fun contextualTuples role =>
          contextualTuples ++ [{ Object := fgaObject, Relation := role, User := fgaUser }])
        acc
      = acc ++ Spec.roleTuples fgaObject fgaUser roles := by
  induction roles with
  | nil => intro acc; simp [Spec.roleTuples]
  | cons r rest ih =>
    intro acc
    rw [List.foldl_cons, ih]
    simp [Spec.roleTuples]

/-- A permission ends with the suffix exactly when it is some string followed by it. -/
theorem endsWith_iff (permission suffix : String) :
    Spec.endsWith permission suffix = true ↔ ∃ front : String, permission = front ++ suffix := by
  simp only [Spec.endsWith, List.isSuffixOf_iff_suffix]
  constructor
  · rintro ⟨t, ht⟩
    exact ⟨String.mk t, by
      apply String.ext
      simpa using ht.symm⟩
  · rintro ⟨front, rfl⟩
    exact ⟨front.data, by simp⟩

/-! ## The record store: claims -/

/-- C1: for a store whose record ids are pairwise distinct and a candidate picture, when
`CreatePicture` assigns a generated id that no record of the store carries and
`DeletePicture` is then called with that id, `DeletePicture` succeeds, the collection is
exactly one record shorter than after the create (it is the collection from before the
create), no remaining record carries that id, and a following `getPicture` with that id
fails with the error "Picture not found". -/
theorem delete_after_create (store : Store) (picture : Picture) (uuid : String)
    (hdistinct : store.ids.Nodup) (hfresh : uuid ∉ store.ids) :
    ((store.CreatePicture picture uuid).2.DeletePicture
        (store.CreatePicture picture uuid).1.1.Id).1 = none ∧
    ((store.CreatePicture picture uuid).2.DeletePicture
        (store.CreatePicture picture uuid).1.1.Id).2.Pictures.length + 1
      = (store.CreatePicture picture uuid).2.Pictures.length ∧
    (∀ p ∈ ((store.CreatePicture picture uuid).2.DeletePicture
        (store.CreatePicture picture uuid).1.1.Id).2.Pictures,
      p.Id ≠ (store.CreatePicture picture uuid).1.1.Id) ∧
    ((store.CreatePicture picture uuid).2.DeletePicture
        (store.CreatePicture picture uuid).1.1.Id).2.getPicture
        (store.CreatePicture picture uuid).1.1.Id = (none, some "Picture not found") ∧
    ((store.CreatePicture picture uuid).2.DeletePicture
        (store.CreatePicture picture uuid).1.1.Id).2 = store := by
  have _ := hdistinct
  have hno : ∀ q ∈ store.Pictures, q.Id ≠ uuid :=
    fun q hq hid => hfresh ((mem_ids store uuid).mpr ⟨q, hq, hid⟩)
  have hdel := DeletePicture_found (store.CreatePicture picture uuid).2 uuid store.Pictures []
    { Id := uuid, Url := picture.Url } (CreatePicture_store store picture uuid) hno rfl
  have hdel' : (store.CreatePicture picture uuid).2.DeletePicture uuid = (none, store) := by
    rw [hdel]
    cases store
    simp
  have hid : (store.CreatePicture picture uuid).1.1.Id = uuid := rfl
  rw [hid, hdel']
  refine ⟨rfl, ?_, hno, getPicture_not_found _ uuid hno, rfl⟩
  simp [CreatePicture_store]

theorem delete_after_create_witness :
    ((Store.mk [⟨"p1", "https://img/1.png"⟩]).CreatePicture ⟨"", "https://img/2.png"⟩ "p2").2
      = Store.mk [⟨"p1", "https://img/1.png"⟩, ⟨"p2", "https://img/2.png"⟩] ∧
    (((Store.mk [⟨"p1", "https://img/1.png"⟩]).CreatePicture
        ⟨"", "https://img/2.png"⟩ "p2").2.DeletePicture "p2").2
      = Store.mk [⟨"p1", "https://img/1.png"⟩] :=
  ⟨by decide,
   (delete_after_create (Store.mk [⟨"p1", "https://img/1.png"⟩]) ⟨"", "https://img/2.png"⟩ "p2"
      (by decide) (by decide)).2.2.2.2⟩

/-- C2, as stated, fails when the generated id is already carried by a record of the store:
the created record has the candidate's url, `getPicture` with its id returns the older
record. -/
theorem collision_returns_older_record :
    ((Store.mk [⟨"1b4e28ba-2fa1-41d2-883f-0016d3cca427", "https://img/old.png"⟩]).CreatePicture
        ⟨"", "https://img/new.png"⟩ "1b4e28ba-2fa1-41d2-883f-0016d3cca427").1
      = (⟨"1b4e28ba-2fa1-41d2-883f-0016d3cca427", "https://img/new.png"⟩, none) ∧
    ((Store.mk [⟨"1b4e28ba-2fa1-41d2-883f-0016d3cca427", "https://img/old.png"⟩]).CreatePicture
        ⟨"", "https://img/new.png"⟩ "1b4e28ba-2fa1-41d2-883f-0016d3cca427").2.getPicture
        "1b4e28ba-2fa1-41d2-883f-0016d3cca427"
      = (some ⟨"1b4e28ba-2fa1-41d2-883f-0016d3cca427", "https://img/old.png"⟩, none) := by
  decide

/-- C2, amended: for every store and candidate picture, `getPicture` called with the id of
the record returned by `CreatePicture` succeeds and returns a record with that id; when no
record of the store already carried the generated id, the record returned is the created
one, whose url is the candidate's url and whose id is the generated id, whatever id the
candidate carried on input. -/
theorem get_after_create (store : Store) (picture : Picture) (uuid : String) :
    (store.CreatePicture picture uuid).1.1.Id = uuid ∧
    (∃ p, (store.CreatePicture picture uuid).2.getPicture
        (store.CreatePicture picture uuid).1.1.Id = (some p, none) ∧ p.Id = uuid) ∧
    (uuid ∉ store.ids →
      (store.CreatePicture picture uuid).2.getPicture (store.CreatePicture picture uuid).1.1.Id
        = (some { Id := uuid, Url := picture.Url }, none)) := by
  refine ⟨rfl, ?_, ?_⟩
  · obtain ⟨pre, p, post, hs, hpre, hp⟩ :=
      exists_first_split (store.CreatePicture picture uuid).2 uuid
        ⟨{ Id := uuid, Url := picture.Url }, by simp [CreatePicture_store], rfl⟩
    exact ⟨p, getPicture_found _ uuid pre post p hs hpre hp, hp⟩
  · intro hfresh
    have hno : ∀ q ∈ store.Pictures, q.Id ≠ uuid :=
      fun q hq hid => hfresh ((mem_ids store uuid).mpr ⟨q, hq, hid⟩)
    exact getPicture_found _ uuid store.Pictures [] { Id := uuid, Url := picture.Url }
      (CreatePicture_store store picture uuid) hno rfl

theorem get_after_create_witness :
    ((Store.mk [⟨"p1", "https://img/1.png"⟩]).CreatePicture
        ⟨"p1", "https://img/2.png"⟩ "p2").2.getPicture "p2"
      = (some ⟨"p2", "https://img/2.png"⟩, none) :=
  (get_after_create (Store.mk [⟨"p1", "https://img/1.png"⟩]) ⟨"p1", "https://img/2.png"⟩
    "p2").2.2 (by decide)

/-- C3: for every store and id, when no record carries the id `getPicture` returns no
picture and the error "Picture not found" and `DeletePicture` returns the error
"Picture not found" (leaving the store as it was); when some record carries the id both
succeed, `getPicture` with a record carrying the id. -/
theorem not_found_iff_absent (store : Store) (id : String) :
    ((∀ p ∈ store.Pictures, p.Id ≠ id) →
      store.getPicture id = (none, some "Picture not found") ∧
      store.DeletePicture id = (some "Picture not found", store)) ∧
    ((∃ p ∈ store.Pictures, p.Id = id) →
      (∃ p, store.getPicture id = (some p, none) ∧ p.Id = id) ∧
      (store.DeletePicture id).1 = none) := by
  constructor
  · intro h
    exact ⟨getPicture_not_found store id h, DeletePicture_not_found store id h⟩
  · intro h
    obtain ⟨pre, p, post, hs, hpre, hp⟩ := exists_first_split store id h
    refine ⟨⟨p, getPicture_found store id pre post p hs hpre hp, hp⟩, ?_⟩
    rw [DeletePicture_found store id pre post p hs hpre hp]

theorem not_found_iff_absent_witness :
    ((Store.mk [⟨"p1", "u1"⟩, ⟨"p2", "u2"⟩]).getPicture "p3" = (none, some "Picture not found") ∧
      (Store.mk [⟨"p1", "u1"⟩, ⟨"p2", "u2"⟩]).DeletePicture "p3"
        = (some "Picture not found", Store.mk [⟨"p1", "u1"⟩, ⟨"p2", "u2"⟩])) ∧
    ((∃ p, (Store.mk [⟨"p1", "u1"⟩, ⟨"p2", "u2"⟩]).getPicture "p2" = (some p, none) ∧
        p.Id = "p2") ∧
      ((Store.mk [⟨"p1", "u1"⟩, ⟨"p2", "u2"⟩]).DeletePicture "p2").1 = none) :=
  ⟨(not_found_iff_absent (Store.mk [⟨"p1", "u1"⟩, ⟨"p2", "u2"⟩]) "p3").1 (by decide),
   (not_found_iff_absent (Store.mk [⟨"p1", "u1"⟩, ⟨"p2", "u2"⟩]) "p2").2
     ⟨⟨"p2", "u2"⟩, by decide, rfl⟩⟩

/-- C4: id uniqueness is an invariant of the store. Starting from the empty store, after
every sequence of `CreatePicture` and `DeletePicture` calls in which each create is handed
an id no stored record carries, the ids of the stored records are pairwise distinct; and no
call changes a record that remains: a create leaves the old records in place and appends the
new one, a delete leaves a sublist of the old records. -/
theorem ids_pairwise_distinct (ops : List StoreOp) (hfresh : Store.fresh.freshRun ops = true) :
    (Store.fresh.run ops).ids.Nodup ∧
    (∀ (store : Store) (picture : Picture) (uuid : String),
      (store.CreatePicture picture uuid).2.Pictures
        = store.Pictures ++ [{ Id := uuid, Url := picture.Url }]) ∧
    (∀ (store : Store) (id : String),
      List.Sublist (store.DeletePicture id).2.Pictures store.Pictures) :=
  ⟨run_nodup ops Store.fresh (by simp [Store.fresh, Store.ids]) hfresh,
   CreatePicture_store, DeletePicture_sublist⟩

theorem ids_pairwise_distinct_witness :
    Store.fresh.run [.create ⟨"", "u1"⟩ "p1", .create ⟨"", "u2"⟩ "p2", .delete "p1",
        .create ⟨"", "u3"⟩ "p1"]
      = Store.mk [⟨"p2", "u2"⟩, ⟨"p1", "u3"⟩] ∧
    (Store.fresh.run [.create ⟨"", "u1"⟩ "p1", .create ⟨"", "u2"⟩ "p2", .delete "p1",
        .create ⟨"", "u3"⟩ "p1"]).ids.Nodup :=
  ⟨by decide,
   (ids_pairwise_distinct [.create ⟨"", "u1"⟩ "p1", .create ⟨"", "u2"⟩ "p2", .delete "p1",
      .create ⟨"", "u3"⟩ "p1"] (by decide)).1⟩

/-- C5: for every store and every id carried by at least one record, `DeletePicture`
succeeds and removes exactly the first record with that id, keeping all other records in
their original order: the new collection is the records before that record followed by the
records after it. -/
theorem delete_removes_first (store : Store) (id : String)
    (h : ∃ p ∈ store.Pictures, p.Id = id) :
    ∃ pre p post, store.Pictures = pre ++ p :: post ∧ (∀ q ∈ pre, q.Id ≠ id) ∧ p.Id = id ∧
      store.DeletePicture id = (none, { Pictures := pre ++ post }) := by
  obtain ⟨pre, p, post, hs, hpre, hp⟩ := exists_first_split store id h
  exact ⟨pre, p, post, hs, hpre, hp, DeletePicture_found store id pre post p hs hpre hp⟩

theorem delete_removes_first_witness :
    ∃ pre p post,
      (Store.mk [⟨"a", "x"⟩, ⟨"b", "y"⟩, ⟨"c", "z"⟩, ⟨"b", "w"⟩]).Pictures = pre ++ p :: post ∧
      (∀ q ∈ pre, q.Id ≠ "b") ∧ p.Id = "b" ∧
      (Store.mk [⟨"a", "x"⟩, ⟨"b", "y"⟩, ⟨"c", "z"⟩, ⟨"b", "w"⟩]).DeletePicture "b"
        = (none, { Pictures := pre ++ post }) :=
  delete_removes_first (Store.mk [⟨"a", "x"⟩, ⟨"b", "y"⟩, ⟨"c", "z"⟩, ⟨"b", "w"⟩]) "b"
    ⟨⟨"b", "y"⟩, by decide, rfl⟩

/-! ## The authorization requests: claims -/

/-- C6: for every object, relation, user, list of permissions and suffix, the check request
`CheckWithPermissions` builds (and hands to the client, whose answer alone decides the
result) carries the primary object, relation and user unchanged and has exactly one
contextual tuple per permission that ends with the suffix, in input order, and none for any
other permission; each tuple has the primary object and user and the relation `can_`
followed by the part of the permission before its first `:`. With permissions
`["view:pictures", "delete:comments"]` and suffix `pictures` the only contextual tuple has
relation `can_view`. -/
theorem permissions_request (fga : FGA) (object relation user : String)
    (permissions : List String) (suffix : String) :
    FGA.CheckWithPermissions.body object relation user permissions suffix
      = { Object := object, Relation := relation, User := user,
          ContextualTuples := Spec.permissionTuples object user permissions suffix } ∧
    FGA.CheckWithPermissions fga object relation user permissions suffix
      = (if (fga.Client.Check
              { Object := object, Relation := relation, User := user,
                ContextualTuples :=
                  Spec.permissionTuples object user permissions suffix }).2.isSome ||
            !GetAllowed (fga.Client.Check
              { Object := object, Relation := relation, User := user,
                ContextualTuples :=
                  Spec.permissionTuples object user permissions suffix }).1
         then (false, (fga.Client.Check
              { Object := object, Relation := relation, User := user,
                ContextualTuples :=
                  Spec.permissionTuples object user permissions suffix }).2)
         else (true, none)) ∧
    (FGA.CheckWithPermissions.body object relation user
        ["view:pictures", "delete:comments"] "pictures").ContextualTuples
      = [{ Object := object, Relation := "can_view", User := user }] := by
  have hbody : ∀ perms suf, FGA.CheckWithPermissions.body object relation user perms suf
      = { Object := object, Relation := relation, User := user,
          ContextualTuples := Spec.permissionTuples object user perms suf } := by
    intro perms suf
    simp only [FGA.CheckWithPermissions.body, FGA.CheckWithPermissions.contextualTuples]
    rw [permission_loop object user suf perms []]
    simp
  refine ⟨hbody _ _, ?_, ?_⟩
  · simp only [FGA.CheckWithPermissions, hbody]
  · rw [hbody]
    have h1 : Spec.endsWith "view:pictures" "pictures" = true := by decide
    have h2 : Spec.endsWith "delete:comments" "pictures" = false := by decide
    have h3 : Spec.beforeFirstColon "view:pictures" = "view" := by decide
    simp only [Spec.permissionTuples, List.filter, h1, h2, h3, List.map]
    rfl

/-- C7: for every object, relation, user and list of roles, the check request
`CheckWithRoles` builds (and hands to the client, whose answer alone decides the result)
carries the primary object, relation and user unchanged and has exactly `len(roles)`
contextual tuples, the i-th being {object, relation: roles[i], user}; with roles
`["admin", "editor"]` it has exactly two, one per role. -/
theorem roles_request (fga : FGA) (object relation user : String) (roles : List String) :
    FGA.CheckWithRoles.body object relation user roles
      = { Object := object, Relation := relation, User := user,
          ContextualTuples := Spec.roleTuples object user roles } ∧
    (FGA.CheckWithRoles.body object relation user roles).ContextualTuples.length
      = roles.length ∧
    (∀ i : Nat, (FGA.CheckWithRoles.body object relation user roles).ContextualTuples[i]?
      = (roles[i]?).map (fun role => { Object := object, Relation := role, User := user })) ∧
    FGA.CheckWithRoles fga object relation user roles
      = (if (fga.Client.Check
              { Object := object, Relation := relation, User := user,
                ContextualTuples := Spec.roleTuples object user roles }).2.isSome ||
            !GetAllowed (fga.Client.Check
              { Object := object, Relation := relation, User := user,
                ContextualTuples := Spec.roleTuples object user roles }).1
         then (false, (fga.Client.Check
              { Object := object, Relation := relation, User := user,
                ContextualTuples := Spec.roleTuples object user roles }).2)
         else (true, none)) ∧
    (FGA.CheckWithRoles.body object relation user ["admin", "editor"]).ContextualTuples
      = [{ Object := object, Relation := "admin", User := user },
         { Object := object, Relation := "editor", User := user }] := by
  have hbody : ∀ rs, FGA.CheckWithRoles.body object relation user rs
      = { Object := object, Relation := relation, User := user,
          ContextualTuples := Spec.roleTuples object user rs } := by
    intro rs
    simp only [FGA.CheckWithRoles.body, FGA.CheckWithRoles.contextualTuples]
    rw [role_loop object user rs []]
    simp
  refine ⟨hbody _, ?_, ?_, ?_, ?_⟩
  · rw [hbody]; simp [Spec.roleTuples]
  · intro i
    rw [hbody]; simp [Spec.roleTuples]
  · simp only [FGA.CheckWithRoles, hbody]
  · rw [hbody]; rfl

/-! ## The handlers: claims -/

theorem CheckWithRoles_error (fga : FGA) (object relation user : String) (roles : List String)
    (resp : Option ClientCheckResponse) (msg : String)
    (h : fga.Client.Check (FGA.CheckWithRoles.body object relation user roles)
      = (resp, some msg)) :
    fga.CheckWithRoles object relation user roles = (false, some msg) := by
  simp [FGA.CheckWithRoles, h]

theorem CheckWithRoles_denied (fga : FGA) (object relation user : String) (roles : List String)
    (resp : Option ClientCheckResponse)
    (h : fga.Client.Check (FGA.CheckWithRoles.body object relation user roles) = (resp, none))
    (hdenied : GetAllowed resp = false) :
    fga.CheckWithRoles object relation user roles = (false, none) := by
  simp [FGA.CheckWithRoles, h, hdenied]

/-- C8: in the get-by-id and delete-by-id handlers, when the remote check returns an error
the handler completes with status 401, a body that echoes the error text, and the store
untouched. When the remote check succeeds with a negative decision the error is nil: the
handler writes status 401 and then panics on `err.Error()`, so it does not complete and
writes no body (the store is untouched). -/
theorem denied_check_outcome (ps : pictureService) (r : Request) (token : ValidatedClaims)
    (customClaims : CustomClaims)
    (hclaims : r.Claims = some token) (hcustom : token.CustomClaims = some customClaims) :
    (∀ resp msg,
      ps.FGA.Client.Check
          (FGA.CheckWithRoles.body ("picture:" ++ r.PathValue "id") "can_view"
            ("user:" ++ token.RegisteredClaims.Subject) customClaims.Roles) = (resp, some msg) →
      ps.getPictureHandler ResponseWriter.new r
        = { w := { Header := [], Status := some 401, Body := [.text msg] },
            store := ps.Store, panicked := none } ∧
      ps.deletePictureHandler ResponseWriter.new r
        = { w := { Header := [], Status := some 401, Body := [.text msg] },
            store := ps.Store, panicked := none }) ∧
    (∀ resp,
      ps.FGA.Client.Check
          (FGA.CheckWithRoles.body ("picture:" ++ r.PathValue "id") "can_view"
            ("user:" ++ token.RegisteredClaims.Subject) customClaims.Roles) = (resp, none) →
      GetAllowed resp = false →
      ps.getPictureHandler ResponseWriter.new r
        = { w := { Header := [], Status := some 401, Body := [] },
            store := ps.Store, panicked := some nilDereference } ∧
      ps.deletePictureHandler ResponseWriter.new r
        = { w := { Header := [], Status := some 401, Body := [] },
            store := ps.Store, panicked := some nilDereference }) := by
  constructor
  · intro resp msg h
    have hc := CheckWithRoles_error ps.FGA _ _ _ _ resp msg h
    constructor
    · simp only [pictureService.getPictureHandler, hclaims, hcustom, hc]
      rfl
    · simp only [pictureService.deletePictureHandler, hclaims, hcustom, hc]
      rfl
  · intro resp h hdenied
    have hc := CheckWithRoles_denied ps.FGA _ _ _ _ resp h hdenied
    constructor
    · simp only [pictureService.getPictureHandler, hclaims, hcustom, hc]
      rfl
    · simp only [pictureService.deletePictureHandler, hclaims, hcustom, hc]
      rfl

theorem denied_check_outcome_witness :
    pictureService.getPictureHandler (pictureService.mk (Store.mk [⟨"7", "https://img/7.png"⟩]) Sample.fgaDenies) ResponseWriter.new Sample.getRequest
      = { w := { Header := [], Status := some 401, Body := [] },
          store := Store.mk [⟨"7", "https://img/7.png"⟩],
          panicked := some nilDereference } ∧
    pictureService.deletePictureHandler (pictureService.mk (Store.mk [⟨"7", "https://img/7.png"⟩]) Sample.fgaDenies) ResponseWriter.new Sample.getRequest
      = { w := { Header := [], Status := some 401, Body := [] },
          store := Store.mk [⟨"7", "https://img/7.png"⟩],
          panicked := some nilDereference } :=
  (denied_check_outcome (pictureService.mk (Store.mk [⟨"7", "https://img/7.png"⟩]) Sample.fgaDenies) Sample.getRequest Sample.claims
      { Permissions := [], Roles := ["admin"], ShouldReject := false } rfl rfl).2
    (some { Allowed := some false }) rfl rfl

/-- C9, as stated, fails: on the freshly started server a `GET /pictures` request without a
bearer token is answered by the token check with status 401 and the JWT failure body. -/
theorem list_without_token_rejected :
    server Sample.env Store.fresh Sample.listRequest
      = { w := { Header := [("Content-Type", "application/json")],
                 Status := some 401,
                 Body := [.text "\x7b\"message\":\"Failed to validate JWT.\"\x7d"] },
          store := Store.fresh, panicked := none } := by
  decide

/-- C9, amended: the token check wraps the whole mux, the list endpoint included. A request
that carries no bearer token, or one the validator rejects, is answered by the token check
with status 401 and the body `{"message":"Failed to validate JWT."}` and reaches no handler
(the store is untouched). On a freshly started server a `GET /pictures` request whose token
the validator accepts reaches the list handler and is answered with status 200 and the JSON
encoding of the empty collection. -/
theorem list_behind_token_check (env : Env) (r : Request) :
    ((r.Token = none ∨ ∃ t msg, r.Token = some t ∧ (env.validateToken t).2 = some msg) →
      ∀ store : Store, server env store r
        = { w := { Header := [("Content-Type", "application/json")],
                   Status := some 401,
                   Body := [.text "\x7b\"message\":\"Failed to validate JWT.\"\x7d"] },
            store := store, panicked := none }) ∧
    (∀ t validToken, r.Method = "GET" → r.Path = ["pictures"] → r.Token = some t →
      env.validateToken t = (validToken, none) →
      server env Store.fresh r
        = { w := { Header := [("Content-Type", "application/json")],
                   Status := some 200,
                   Body := [.json (.pictures [])] },
            store := Store.fresh, panicked := none }) := by
  constructor
  · rintro (h | ⟨t, msg, ht, hv⟩) store
    · simp only [server, NewEnsureValidAccessToken, EnsureValidAccessToken, CheckJWT, h]
      rfl
    · simp only [server, NewEnsureValidAccessToken, EnsureValidAccessToken, CheckJWT, ht]
      rcases hvt : env.validateToken t with ⟨c, e⟩
      rw [hvt] at hv
      simp only at hv
      subst hv
      rfl
  · intro t validToken hm hp ht hv
    simp only [server, NewEnsureValidAccessToken, EnsureValidAccessToken, CheckJWT, ht, hv, router, hm, hp]
    rfl

theorem list_behind_token_check_witness :
    server Sample.env Store.fresh { Sample.listRequest with Token := some "expired" }
      = { w := { Header := [("Content-Type", "application/json")],
                 Status := some 401,
                 Body := [.text "\x7b\"message\":\"Failed to validate JWT.\"\x7d"] },
          store := Store.fresh, panicked := none } ∧
    server Sample.env Store.fresh { Sample.listRequest with Token := some "good" }
      = { w := { Header := [("Content-Type", "application/json")],
                 Status := some 200,
                 Body := [.json (.pictures [])] },
          store := Store.fresh, panicked := none } :=
  ⟨(list_behind_token_check Sample.env { Sample.listRequest with Token := some "expired" }).1
      (Or.inr ⟨"expired", "token is malformed", rfl, by decide⟩) Store.fresh,
   (list_behind_token_check Sample.env { Sample.listRequest with Token := some "good" }).2
      "good" (some Sample.claims) rfl rfl rfl (by decide)⟩

/-- C10, as stated, fails: when the write of the relationship tuples to the policy service
fails, the create handler answers with status 401, not 500 (and the picture stays in the
store). -/
theorem create_write_failure_is_401 :
    pictureService.postPictureHandler (pictureService.mk Store.fresh Sample.fgaUnreachable)
        Sample.decode "1b4e28ba-2fa1-41d2-883f-0016d3cca427" ResponseWriter.new
        Sample.postRequest
      = { w := { Header := [], Status := some 401,
                 Body := [.text "dial tcp: connection refused"] },
          store := Store.mk [⟨"1b4e28ba-2fa1-41d2-883f-0016d3cca427", "https://img/new.png"⟩],
          panicked := none } := by
  decide

/-- C10, amended: for every authenticated `POST /pictures` request, a body that does not
parse is answered with status 500 and the error text, the store untouched; `CreatePicture`
returns no error; a failed write of the relationship tuples to the policy service is
answered with status 401 and the error text, the picture staying in the store; success is
answered with status 201 and the created picture. -/
theorem create_handler_statuses (ps : pictureService) (decode : String → Picture × GoError)
    (uuid : String) (r : Request) (token : ValidatedClaims) (hclaims : r.Claims = some token) :
    (∀ parsedBody msg, decode r.Body = (parsedBody, some msg) →
      ps.postPictureHandler decode uuid ResponseWriter.new r
        = { w := { Header := [], Status := some 500, Body := [.text msg] },
            store := ps.Store, panicked := none }) ∧
    (∀ parsedBody, decode r.Body = (parsedBody, none) →
      (ps.Store.CreatePicture parsedBody uuid).1.2 = none ∧
      (∀ msg,
        ps.FGA.Client.Write
            { Writes := pictureService.postPictureHandler.tuples uuid
                token.RegisteredClaims.Subject } = some msg →
        ps.postPictureHandler decode uuid ResponseWriter.new r
          = { w := { Header := [], Status := some 401, Body := [.text msg] },
              store := { Pictures := ps.Store.Pictures ++ [{ Id := uuid, Url := parsedBody.Url }] },
              panicked := none }) ∧
      (ps.FGA.Client.Write
            { Writes := pictureService.postPictureHandler.tuples uuid
                token.RegisteredClaims.Subject } = none →
        ps.postPictureHandler decode uuid ResponseWriter.new r
          = { w := { Header := [("Content-Type", "application/json")], Status := some 201,
                     Body := [.json (.picture (some { Id := uuid, Url := parsedBody.Url }))] },
              store := { Pictures := ps.Store.Pictures ++ [{ Id := uuid, Url := parsedBody.Url }] },
              panicked := none })) := by
  constructor
  · intro parsedBody msg hd
    simp only [pictureService.postPictureHandler, hclaims, hd]
    rfl
  · intro parsedBody hd
    refine ⟨rfl, ?_, ?_⟩
    · intro msg hw
      simp only [pictureService.postPictureHandler, hclaims, hd, Store.CreatePicture, hw]
      rfl
    · intro hw
      simp only [pictureService.postPictureHandler, hclaims, hd, Store.CreatePicture, hw]
      rfl

theorem create_handler_statuses_witness :
    pictureService.postPictureHandler (pictureService.mk Store.fresh Sample.fgaDenies)
        Sample.decode "1b4e28ba-2fa1-41d2-883f-0016d3cca427" ResponseWriter.new
        Sample.postRequest
      = { w := { Header := [("Content-Type", "application/json")], Status := some 201,
                 Body := [.json (.picture (some
                   { Id := "1b4e28ba-2fa1-41d2-883f-0016d3cca427",
                     Url := "https://img/new.png" }))] },
          store := { Pictures := Store.fresh.Pictures ++
            [{ Id := "1b4e28ba-2fa1-41d2-883f-0016d3cca427", Url := "https://img/new.png" }] },
          panicked := none } :=
  ((create_handler_statuses (pictureService.mk Store.fresh Sample.fgaDenies) Sample.decode
      "1b4e28ba-2fa1-41d2-883f-0016d3cca427" Sample.postRequest Sample.claims rfl).2
    { Id := "", Url := "https://img/new.png" } rfl).2.2 rfl

end PictureService
